import Mathlib

/-
Verification of the stock-app core: the in-memory latest-quote table, the
stream ingester, the tiered cache TTL policy, the persistence scheduler and
the market clock, shallowly embedded from the Go sources.

Go float64 fields (prices, volumes, percentages) are modelled as exact
rationals; Go maps keyed by symbol are modelled as association lists whose
order stands for the (unspecified) map iteration order; fallible operations
return Except or Option, with Option.none and Except.error standing for a
runtime panic or a returned error as noted at each definition.
-/

/-- Embeds entity.StockQuote (internal/entity/stock.go): the latest-quote
record for one symbol. The Go time.Time timestamp is kept as nanoseconds
since the Unix epoch. -/
structure StockQuote where
  symbol : String
  price : ℚ
  change : ℚ
  changePercentage : ℚ
  highPrice : ℚ
  lowPrice : ℚ
  openPrice : ℚ
  prevClose : ℚ
  volume : ℚ
  timestamp : ℤ
  deriving Repr, DecidableEq

/-- Embeds entity.LatestQuoteData.StockData, the Go map from symbol to its
latest StockQuote. The list order models the map iteration order; the mutex
is dropped because the embedding is sequential. -/
abbrev QuoteMap : Type := List (String × StockQuote)

/-- Embeds a Go map read latestQuoteData.StockData[symbol] together with its
presence flag. -/
def lookupQuote : QuoteMap → String → Option StockQuote
  | [], _ => none
  | (k, v) :: rest, s => if k = s then some v else lookupQuote rest s

/-- Embeds a Go map write latestQuoteData.StockData[symbol] = quote: replaces
the record when the key exists, otherwise adds it. -/
def upsertQuote : QuoteMap → String → StockQuote → QuoteMap
  | [], s, q => [(s, q)]
  | (k, v) :: rest, s, q =>
      if k = s then (s, q) :: rest else (k, v) :: upsertQuote rest s q

theorem lookupQuote_upsertQuote_self (d : QuoteMap) (s : String) (q : StockQuote) :
    lookupQuote (upsertQuote d s q) s = some q := by
  induction d with
  | nil => simp [upsertQuote, lookupQuote]
  | cons p rest ih =>
      obtain ⟨k, v⟩ := p
      by_cases h : k = s
      · simp [upsertQuote, lookupQuote, h]
      · simp [upsertQuote, lookupQuote, h, ih]

namespace utils

/-- Embeds utils.Max (pkg/utils): if a > b then a else b. -/
def Max (a b : ℚ) : ℚ := if a > b then a else b

/-- Embeds utils.Min (pkg/utils): if a < b then a else b. -/
def Min (a b : ℚ) : ℚ := if a < b then a else b

end utils

/-- Embeds one trade object of the websocket feed after field extraction:
symbol s, price p, timestamp t in milliseconds, volume v
(internal/api/realtime/stock_realtime_fetcher.go, lines 75 to 78). -/
structure TradeEvent where
  s : String
  p : ℚ
  t : ℤ
  v : ℚ
  deriving Repr, DecidableEq

/-- Embeds the per-trade body of RealTimeFetcher.StartRealTimeUpdates
(internal/api/realtime/stock_realtime_fetcher.go, lines 82 to 122): look up
the previous quote; when none exists skip the event leaving the table
unchanged; otherwise derive the new record and upsert it. The Go
construction time.Unix(0, timestamp times a millisecond) becomes
nanoseconds e.t * 1000000. -/
def processTrade (d : QuoteMap) (e : TradeEvent) : QuoteMap :=
  match lookupQuote d e.s with
  | none => d
  | some prevQuote =>
      let change := e.p - prevQuote.price
      let changePercentage := (change / prevQuote.price) * 100
      let highPrice := utils.Max e.p prevQuote.highPrice
      let lowPrice := utils.Min e.p prevQuote.lowPrice
      let currentVolume := prevQuote.volume + e.v
      let stockQuote : StockQuote :=
        { symbol := e.s
          price := e.p
          change := change
          changePercentage := changePercentage
          highPrice := highPrice
          lowPrice := lowPrice
          openPrice := prevQuote.openPrice
          prevClose := prevQuote.price
          volume := currentVolume
          timestamp := e.t * 1000000 }
      upsertQuote d e.s stockQuote

/-- Concrete baseline record used for the claim C2 scenario: AAPL at price
150, high 150, low 150, cumulative volume 1000. -/
def c2Baseline : StockQuote :=
  { symbol := "AAPL", price := 150, change := 0, changePercentage := 0
    highPrice := 150, lowPrice := 150, openPrice := 149, prevClose := 148
    volume := 1000, timestamp := 0 }

def c2Map : QuoteMap := [("AAPL", c2Baseline)]

def c2Event : TradeEvent := { s := "AAPL", p := 152, t := 5, v := 50 }

/-- Concrete inputs for claim C3: a baseline whose prevClose field (148)
differs from its price field (150), so carrying prevClose forward is
distinguishable from overwriting it with the baseline price. -/
def c3Baseline : StockQuote :=
  { symbol := "AAPL", price := 150, change := 0, changePercentage := 0
    highPrice := 150, lowPrice := 150, openPrice := 149, prevClose := 148
    volume := 1000, timestamp := 0 }

def c3Map : QuoteMap := [("AAPL", c3Baseline)]

def c3Event : TradeEvent := { s := "AAPL", p := 152, t := 5, v := 50 }

/-- Concrete inputs for claim C4: a table holding only AAPL and a trade
event for TSLA, which has no baseline. -/
def c4Map : QuoteMap := [("AAPL", c3Baseline)]

def c4Event : TradeEvent := { s := "TSLA", p := 700, t := 9, v := 10 }

/-- C2: for every trade event whose symbol has a baseline record, the
ingester upserts a record with price = event price, change = price minus
baseline price, changePct = change over baseline price times 100,
high = max(price, baseline high), low = min(price, baseline low), and
volume = baseline volume plus event volume. -/
theorem processTrade_derivation (d : QuoteMap) (e : TradeEvent) (prev : StockQuote)
    (h : lookupQuote d e.s = some prev) :
    lookupQuote (processTrade d e) e.s = some
      { symbol := e.s
        price := e.p
        change := e.p - prev.price
        changePercentage := ((e.p - prev.price) / prev.price) * 100
        highPrice := utils.Max e.p prev.highPrice
        lowPrice := utils.Min e.p prev.lowPrice
        openPrice := prev.openPrice
        prevClose := prev.price
        volume := prev.volume + e.v
        timestamp := e.t * 1000000 } := by
  simp only [processTrade, h]
  exact lookupQuote_upsertQuote_self d e.s _

/-- Witness for C2, the spec scenario: baseline AAPL price 150, high 150,
low 150, volume 1000; event price 152, volume 50 gives price 152, change 2,
changePct 4/3 (which prints as 1.33 percent to two decimals), high 152,
low 150, volume 1050. -/
theorem processTrade_derivation_witness :
    lookupQuote (processTrade c2Map c2Event) "AAPL" = some
      { symbol := "AAPL", price := 152, change := 2, changePercentage := 4/3
        highPrice := 152, lowPrice := 150, openPrice := 149, prevClose := 150
        volume := 1050, timestamp := 5000000 } ∧
    (133 : ℚ)/100 ≤ 4/3 ∧ (4 : ℚ)/3 < 134/100 := by
  refine ⟨?_, by norm_num, by norm_num⟩
  have h := processTrade_derivation c2Map c2Event c2Baseline
    (by simp [c2Map, c2Event, lookupQuote])
  refine h.trans ?_
  simp only [c2Event, c2Baseline, utils.Max, utils.Min, Option.some.injEq]
  norm_num

/-- C3 counterexample: from a baseline with price 150 and prevClose 148,
the ingested record carries prevClose 150 (the baseline price), not 148
(the baseline prevClose), refuting the claim that prevClose is carried
forward unchanged. -/
theorem processTrade_prevClose_not_carried :
    (lookupQuote (processTrade c3Map c3Event) "AAPL").map StockQuote.prevClose = some 150 ∧
    c3Baseline.prevClose = 148 ∧ ((150 : ℚ) ≠ 148) := by
  refine ⟨?_, by norm_num [c3Baseline], by norm_num⟩
  simp [processTrade, c3Map, c3Event, c3Baseline, lookupQuote, upsertQuote]

/-- C3 amended: for every accepted trade event, openPrice is carried
forward unchanged from the baseline, while prevClose is set to the
baseline price field (the previous trade price), not to the baseline
prevClose field. -/
theorem processTrade_frame_fields (d : QuoteMap) (e : TradeEvent) (prev : StockQuote)
    (h : lookupQuote d e.s = some prev) :
    (lookupQuote (processTrade d e) e.s).map StockQuote.openPrice = some prev.openPrice ∧
    (lookupQuote (processTrade d e) e.s).map StockQuote.prevClose = some prev.price := by
  simp only [processTrade, h, lookupQuote_upsertQuote_self, Option.map_some]
  exact ⟨rfl, rfl⟩

/-- Witness for the amended C3 at the concrete baseline: openPrice 149 is
preserved and prevClose becomes the baseline price 150. -/
theorem processTrade_frame_fields_witness :
    (lookupQuote (processTrade c3Map c3Event) "AAPL").map StockQuote.openPrice = some 149 ∧
    (lookupQuote (processTrade c3Map c3Event) "AAPL").map StockQuote.prevClose = some 150 := by
  have h := processTrade_frame_fields c3Map c3Event c3Baseline
    (by simp [c3Map, c3Event, lookupQuote])
  exact ⟨h.1.trans (by norm_num [c3Baseline]), h.2.trans (by norm_num [c3Baseline])⟩

/-- C4: a trade event whose symbol has no baseline record leaves the whole
quote table unchanged: no record is created and no other record is
modified. -/
theorem processTrade_cold_start (d : QuoteMap) (e : TradeEvent)
    (h : lookupQuote d e.s = none) :
    processTrade d e = d := by
  simp [processTrade, h]

/-- Witness for C4, the spec scenario: a TSLA event arrives while only AAPL
has a record, and the table is returned unchanged. -/
theorem processTrade_cold_start_witness :
    lookupQuote c4Map "TSLA" = none ∧ processTrade c4Map c4Event = c4Map :=
  ⟨by simp [c4Map, lookupQuote], processTrade_cold_start c4Map c4Event
    (by simp [c4Map, c4Event, lookupQuote])⟩

/-- Embeds StockFetchingUseCase.PrePopulateLatestData
(internal/usecase/stock_fetching_usecase.go, lines 85 to 95): for each
symbol of the input map it stores the last element of the symbol's quote
slice, quotes[len(quotes)-1], into the latest-quote table. Go panics with
an index-out-of-range when the slice is empty; the panic is modelled as
Option.none. -/
def PrePopulateLatestData (d : QuoteMap) :
    List (String × List StockQuote) → Option QuoteMap
  | [] => some d
  | (symbol, quotes) :: rest =>
      match quotes.getLast? with
      | none => none
      | some q => PrePopulateLatestData (upsertQuote d symbol q) rest

theorem getLast?_eq_none_iff_nil (l : List StockQuote) :
    l.getLast? = none ↔ l = [] := by
  cases l with
  | nil => simp
  | cons a t => simp [List.getLast?_cons]

/-- C10: PrePopulateLatestData succeeds exactly when every symbol's quote
sequence is non-empty; with an empty sequence the last-element access
quotes[len(quotes)-1] is out of bounds, shown concretely on a map sending
TSLA to the empty sequence. -/
theorem PrePopulateLatestData_requires_nonempty :
    (∀ (d : QuoteMap) (l : List (String × List StockQuote)),
        (PrePopulateLatestData d l).isSome = true ↔ ∀ p ∈ l, p.2 ≠ []) ∧
    PrePopulateLatestData [] [("TSLA", [])] = none := by
  constructor
  · intro d l
    induction l generalizing d with
    | nil => simp [PrePopulateLatestData]
    | cons p rest ih =>
        obtain ⟨symbol, quotes⟩ := p
        cases hq : quotes.getLast? with
        | none =>
            have : quotes = [] := (getLast?_eq_none_iff_nil quotes).mp hq
            simp [PrePopulateLatestData, hq, this]
        | some q =>
            have hne : quotes ≠ [] := by
              intro hnil
              rw [hnil] at hq
              simp at hq
            simp [PrePopulateLatestData, hq, ih, hne]
  · rfl

/-- Witness for C10: on a map whose single sequence is non-empty the
operation succeeds. -/
theorem PrePopulateLatestData_requires_nonempty_witness :
    (PrePopulateLatestData [] [("AAPL", [c2Baseline])]).isSome = true :=
  (PrePopulateLatestData_requires_nonempty.1 [] [("AAPL", [c2Baseline])]).mpr
    (by simp)

/-- Embeds the America/New_York wall-clock view of an instant: the weekday
in the Go time.Weekday numbering (0 Sunday through 6 Saturday) and the
nanoseconds elapsed since local midnight. The time-zone conversion done by
time.LoadLocation and Time.In is abstracted away: a value of this type is
the already-converted local time of the instant. -/
structure NYTime where
  weekday : Nat
  nanoOfDay : Nat
  deriving Repr, DecidableEq

namespace utils

/-- Embeds utils.IsUSMarketOpen (src/unnamed/part_004, lines 41 to 63):
false on Saturday (6) or Sunday (0); otherwise true exactly when the local
time is strictly after 09:30 and strictly before 16:00, the strictness
coming from Time.After and Time.Before on the same-day open and close
instants. -/
def IsUSMarketOpen (t : NYTime) : Bool :=
  if t.weekday = 6 ∨ t.weekday = 0 then false
  else
    decide ((9 * 3600 + 30 * 60) * 1000000000 < t.nanoOfDay) &&
      decide (t.nanoOfDay < (16 * 3600) * 1000000000)

end utils

/-- Transcribes the C9 spec sentence: the market counts as open when the
local day is not Saturday and not Sunday and the local time lies strictly
between 09:30 and 16:00. -/
def marketOpenSpec (t : NYTime) : Prop :=
  t.weekday ≠ 6 ∧ t.weekday ≠ 0 ∧
    34200 * 1000000000 < t.nanoOfDay ∧ t.nanoOfDay < 57600 * 1000000000

/-- C9: IsUSMarketOpen agrees with the spec predicate at every local
instant, and in particular holds on Tuesday noon, fails at exactly 16:00
local, and fails on Saturday at every hour. -/
theorem IsUSMarketOpen_spec :
    (∀ t : NYTime, utils.IsUSMarketOpen t = true ↔ marketOpenSpec t) ∧
    utils.IsUSMarketOpen ⟨2, 12 * 3600 * 1000000000⟩ = true ∧
    utils.IsUSMarketOpen ⟨2, 16 * 3600 * 1000000000⟩ = false ∧
    (∀ n : Nat, utils.IsUSMarketOpen ⟨6, n⟩ = false) := by
  refine ⟨?_, by decide, by decide, ?_⟩
  · intro t
    unfold utils.IsUSMarketOpen marketOpenSpec
    by_cases h : t.weekday = 6 ∨ t.weekday = 0
    · simp [h]
      omega
    · push_neg at h
      simp [h]
  · intro n
    simp [utils.IsUSMarketOpen]

/-- Embeds the two cache TTL durations of config.AppConfig (pkg/config),
in nanoseconds. -/
structure Config where
  cacheShortTTL : Nat
  cacheLongTTL : Nat
  deriving Repr, DecidableEq

/-- Concrete configuration used by the closed instances: short TTL 60,
long TTL 3600. -/
def cfg0 : Config := { cacheShortTTL := 60, cacheLongTTL := 3600 }

/-- Record of one cache write: the symbols written and the TTL passed to
the cache client. -/
structure CacheWrite where
  symbols : List String
  ttl : Nat
  deriving Repr, DecidableEq

/-- Embeds StockFetchingUseCase.updateCache
(internal/usecase/stock_fetching_usecase.go, lines 97 to 109): picks the
short TTL when utils.IsUSMarketOpen(time.Now()) holds and the long TTL
otherwise, then performs one SetAll cache write with that TTL. openNow is
the market-open result at the moment of the write. -/
def updateCache (cfg : Config) (openNow : Bool)
    (latestData : List (String × List StockQuote)) : CacheWrite :=
  let ttl := if openNow then cfg.cacheShortTTL else cfg.cacheLongTTL
  { symbols := latestData.map Prod.fst, ttl := ttl }

/-- Embeds StockFetchingUseCase.writeDataToCache (lines 133 to 143): one
SetAllLatest cache write of the whole latest-quote map, always with
config.AppConfig.CacheShortTTL, independent of the market state at the
time of the tick. -/
def writeDataToCache (cfg : Config) (d : QuoteMap) : CacheWrite :=
  { symbols := d.map Prod.fst, ttl := cfg.cacheShortTTL }

/-- Embeds StockFetchingUseCase.writeDataToDB (lines 145 to 165): iterates
the latest-quote map in iteration order d, calling
stockRepo.InsertIntradayData per symbol; dbOk gives each insert's success.
Returns the symbols for which an insert call was made and the error value
the function returns: the Go code returns on the first failing symbol,
before reaching the rest of the map. -/
def writeDataToDB (dbOk : String → Bool) : QuoteMap → List String × Option String
  | [] => ([], none)
  | (symbol, _) :: rest =>
      if dbOk symbol then
        let r := writeDataToDB dbOk rest
        (symbol :: r.1, r.2)
      else ([symbol], some symbol)

/-- Observable outcome of one scheduler tick: the cache write performed,
the DB insert attempts, and the error writeDataToDB returned, which the
scheduler only logs. -/
structure TickResult where
  cacheWrite : CacheWrite
  dbAttempts : List String
  dbError : Option String
  deriving Repr, DecidableEq

/-- Embeds one iteration of the ticker loop of ScheduleDataWrite (lines
123 to 130): writeDataToCache then writeDataToDB; an error from either is
printed and the loop moves on to the next tick. -/
def scheduleTick (cfg : Config) (dbOk : String → Bool) (d : QuoteMap) : TickResult :=
  let dbr := writeDataToDB dbOk d
  { cacheWrite := writeDataToCache cfg d, dbAttempts := dbr.1, dbError := dbr.2 }

/-- Embeds StockFetchingUseCase.ScheduleDataWrite (lines 112 to 131): the
utils.IsUSMarketOpen check runs exactly once, before the loop; when the
market is closed at that instant the function returns and no tick ever
runs. isOpenAt n is the market state at the n-th observation instant, with
index 0 the start-up check; nTicks cuts the otherwise unbounded ticker
loop at a finite observation horizon. The quote table is held fixed across
ticks, which suffices for the scheduling claims. -/
def ScheduleDataWrite (cfg : Config) (isOpenAt : Nat → Bool) (dbOk : String → Bool)
    (d : QuoteMap) (nTicks : Nat) : List TickResult :=
  if isOpenAt 0 then (List.range nTicks).map (fun _ => scheduleTick cfg dbOk d) else []

/-- C7: when the market is closed at the instant the scheduler starts, the
scheduler performs zero ticks whatever the market state at every later
instant, so it never writes to the cache or the durable store for the
lifetime of the process. -/
theorem ScheduleDataWrite_closed_at_start (cfg : Config) (isOpenAt : Nat → Bool)
    (dbOk : String → Bool) (d : QuoteMap) (nTicks : Nat)
    (h : isOpenAt 0 = false) :
    ScheduleDataWrite cfg isOpenAt dbOk d nTicks = [] := by
  simp [ScheduleDataWrite, h]

/-- Witness for C7: the market is closed at start but open from the next
instant on, and the scheduler still produces no tick over a horizon of
five firings. -/
theorem ScheduleDataWrite_closed_at_start_witness :
    (fun k => decide (0 < k)) 0 = false ∧
    ScheduleDataWrite cfg0 (fun k => decide (0 < k)) (fun _ => true) c2Map 5 = [] :=
  ⟨rfl, ScheduleDataWrite_closed_at_start cfg0 (fun k => decide (0 < k))
    (fun _ => true) c2Map 5 rfl⟩

/-- Concrete inputs for claim C1: a two-symbol table whose first symbol in
iteration order fails its durable-store insert while the second would
succeed. -/
def c1Quote : StockQuote :=
  { symbol := "AAPL", price := 150, change := 0, changePercentage := 0
    highPrice := 150, lowPrice := 150, openPrice := 149, prevClose := 148
    volume := 1000, timestamp := 0 }

def c1Map : QuoteMap := [("AAPL", c1Quote), ("MSFT", { c1Quote with symbol := "MSFT" })]

def c1DbOk : String → Bool := fun s => decide (s ≠ "AAPL")

/-- C1 counterexample: with AAPL failing first in iteration order, the
per-symbol loop stops at AAPL and the MSFT write is never attempted,
refuting the claim that all remaining symbols are still attempted after a
single-symbol failure. -/
theorem writeDataToDB_aborts_on_failure :
    writeDataToDB c1DbOk c1Map = (["AAPL"], some "AAPL") ∧
    "MSFT" ∈ c1Map.map Prod.fst ∧
    "MSFT" ∉ (writeDataToDB c1DbOk c1Map).1 := by
  refine ⟨?_, by simp [c1Map], ?_⟩ <;> simp [writeDataToDB, c1Map, c1DbOk]

/-- C1 amended: during one tick, writeDataToDB attempts the symbols in
iteration order only up to and including the first failing one and returns
that symbol's error; symbols after it are not attempted in that tick. The
scheduler merely logs the error, so every tick of the horizon still runs. -/
theorem writeDataToDB_prefix_until_failure (cfg : Config) (isOpenAt : Nat → Bool)
    (dbOk : String → Bool) (pre post : QuoteMap) (symbol : String) (q : StockQuote)
    (nTicks : Nat)
    (hpre : ∀ p ∈ pre, dbOk p.1 = true) (hsym : dbOk symbol = false)
    (hopen : isOpenAt 0 = true) :
    writeDataToDB dbOk (pre ++ (symbol, q) :: post) =
      (pre.map Prod.fst ++ [symbol], some symbol) ∧
    (ScheduleDataWrite cfg isOpenAt dbOk (pre ++ (symbol, q) :: post) nTicks).length =
      nTicks := by
  constructor
  · induction pre with
    | nil => simp [writeDataToDB, hsym]
    | cons p rest ih =>
        obtain ⟨k, v⟩ := p
        have hk : dbOk k = true := hpre (k, v) (by simp)
        have hrest : ∀ p ∈ rest, dbOk p.1 = true := fun p hp => hpre p (by simp [hp])
        simp [writeDataToDB, hk, ih hrest]
  · simp [ScheduleDataWrite, hopen]

/-- Witness for the amended C1: with MSFT succeeding, AAPL failing and GOOG
after it, the tick attempts MSFT and AAPL only, returns the AAPL error, and
a three-firing horizon still runs three ticks. -/
theorem writeDataToDB_prefix_until_failure_witness :
    writeDataToDB c1DbOk [("MSFT", c1Quote), ("AAPL", c1Quote), ("GOOG", c1Quote)] =
      (["MSFT", "AAPL"], some "AAPL") ∧
    (ScheduleDataWrite cfg0 (fun _ => true) c1DbOk
      [("MSFT", c1Quote), ("AAPL", c1Quote), ("GOOG", c1Quote)] 3).length = 3 := by
  have h := writeDataToDB_prefix_until_failure cfg0 (fun _ => true) c1DbOk
    [("MSFT", c1Quote)] [("GOOG", c1Quote)] "AAPL" c1Quote 3
    (by intro p hp; simp at hp; simp [hp, c1DbOk]) (by simp [c1DbOk]) rfl
  simpa using h

/-- Observable outcome of StockServingUseCase.GetQuote: the quote list
returned to the caller and the cache write-back performed on the fallback
path, if any, as the written quotes paired with the TTL passed. -/
structure GetQuoteResult where
  returned : List StockQuote
  cacheWrite : Option (List StockQuote × Nat)
  deriving Repr, DecidableEq

/-- Embeds StockServingUseCase.GetQuote (src/unnamed/part_001, lines 34 to
50). cacheQuotes and cacheFound are the two results of stockCache.Get;
repoRes the result of stockRepo.GetHistoricalData; cacheSetOk the result
of stockCache.Set. The inner short variable declaration quotes, err := ...
introduces a new quotes that shadows the outer one, so the final return
statement returns the outer cache result even on the fallback path, and
the write-back always passes config.AppConfig.CacheShortTTL. -/
def GetQuote (cfg : Config) (cacheQuotes : List StockQuote) (cacheFound : Bool)
    (repoRes : Except String (List StockQuote)) (cacheSetOk : Bool) :
    Except String GetQuoteResult :=
  if !cacheFound || cacheQuotes.length == 0 then
    match repoRes with
    | .error _ => .error "failed to get historical data by symbol and range"
    | .ok repoQuotes =>
        if repoQuotes.length > 0 then
          if cacheSetOk then
            .ok { returned := cacheQuotes
                  cacheWrite := some (repoQuotes, cfg.cacheShortTTL) }
          else .error "failed to set historical data in cache"
        else .ok { returned := cacheQuotes, cacheWrite := none }
  else .ok { returned := cacheQuotes, cacheWrite := none }

/-- Concrete quote used for the C5 failing input. -/
def c5Quote : StockQuote :=
  { symbol := "AAPL", price := 151, change := 1, changePercentage := 1
    highPrice := 151, lowPrice := 149, openPrice := 150, prevClose := 150
    volume := 10, timestamp := 0 }

/-- C5: on a cache miss GetQuote does fall back to the durable store and
does write the non-empty durable result into the cache (with the short
TTL), but it returns the stale outer cache result, here the empty list,
instead of the durable data: the shadowed inner variable never reaches the
return statement. -/
theorem GetQuote_returns_stale_on_miss :
    GetQuote cfg0 [] false (.ok [c5Quote]) true =
      .ok { returned := [], cacheWrite := some ([c5Quote], 60) } ∧
    ([] : List StockQuote) ≠ [c5Quote] := by
  constructor
  · rfl
  · simp

/-- Concrete quote used for the C8 counterexample input. -/
def c8Quote : StockQuote :=
  { symbol := "MSFT", price := 300, change := 0, changePercentage := 0
    highPrice := 300, lowPrice := 300, openPrice := 300, prevClose := 300
    volume := 5, timestamp := 0 }

/-- C8 counterexample: at Saturday noon New York time the market is
closed, yet the serving path's fallback write-back (which never consults
the market clock) passes the short TTL 60 rather than the long TTL 3600,
refuting the claim that every core cache write uses the long TTL while
the market is closed. -/
theorem GetQuote_writes_shortTTL_while_closed :
    utils.IsUSMarketOpen ⟨6, 12 * 3600 * 1000000000⟩ = false ∧
    GetQuote cfg0 [] false (.ok [c8Quote]) true =
      .ok { returned := [], cacheWrite := some ([c8Quote], cfg0.cacheShortTTL) } ∧
    cfg0.cacheShortTTL = 60 ∧ cfg0.cacheLongTTL = 3600 ∧ (60 : Nat) ≠ 3600 := by
  refine ⟨by decide, rfl, rfl, rfl, by decide⟩

/-- C8 amended: only updateCache selects its TTL from the market clock,
short when open and long when closed; the scheduler's per-tick cache write
and the GetQuote fallback write-back always pass the configured short TTL,
whatever the market state. -/
theorem core_cacheWrite_ttl_policy (cfg : Config) (openNow : Bool)
    (latestData : List (String × List StockQuote)) (d : QuoteMap) :
    (updateCache cfg openNow latestData).ttl =
      (if openNow then cfg.cacheShortTTL else cfg.cacheLongTTL) ∧
    (writeDataToCache cfg d).ttl = cfg.cacheShortTTL ∧
    (∀ (cacheQuotes : List StockQuote) (cacheFound cacheSetOk : Bool)
        (repoRes : Except String (List StockQuote)) (r : GetQuoteResult),
        GetQuote cfg cacheQuotes cacheFound repoRes cacheSetOk = .ok r →
        ∀ w ∈ r.cacheWrite, w.2 = cfg.cacheShortTTL) := by
  refine ⟨rfl, rfl, ?_⟩
  intro cacheQuotes cacheFound cacheSetOk repoRes r h w hw
  unfold GetQuote at h
  split at h
  · split at h
    · simp at h
    · split at h
      · split at h
        · simp only [Except.ok.injEq] at h
          subst h
          simp only [Option.mem_def, Option.some.injEq] at hw
          subst hw
          rfl
        · simp at h
      · simp only [Except.ok.injEq] at h
        subst h
        simp at hw
  · simp only [Except.ok.injEq] at h
    subst h
    simp at hw

/-- Witness for the amended C8: with the market closed the historical
update passes the long TTL 3600, the tick write passes the short TTL 60,
and the concrete fallback write-back of C8 also passes 60. -/
theorem core_cacheWrite_ttl_policy_witness :
    (updateCache cfg0 false []).ttl = 3600 ∧
    (writeDataToCache cfg0 c1Map).ttl = 60 ∧
    (([c8Quote], (60 : Nat)) : List StockQuote × Nat).2 = cfg0.cacheShortTTL := by
  have h := core_cacheWrite_ttl_policy cfg0 false [] c1Map
  refine ⟨h.1.trans (by simp [cfg0]), h.2.1.trans rfl, ?_⟩
  exact h.2.2 [] false true (.ok [c8Quote])
    { returned := [], cacheWrite := some ([c8Quote], 60) } rfl ([c8Quote], 60) rfl

/-- Shallow model of a decoded JSON value, as produced by Conn.ReadJSON
into interface-typed Go values: strings, numbers (float64), arrays,
objects, and the nil interface obtained from a missing map key. -/
inductive JValue where
  | str : String → JValue
  | num : ℚ → JValue
  | arr : List JValue → JValue
  | obj : List (String × JValue) → JValue
  | null : JValue

/-- Embeds a Go map read on a decoded JSON object: a missing key yields
the nil interface value. -/
def jLookup : List (String × JValue) → String → JValue
  | [], _ => .null
  | (k, v) :: rest, s => if k = s then v else jLookup rest s

/-- Embeds an unchecked Go type assertion value.(string): yields the
string, or panics when the dynamic type differs (modelled as
Except.error). -/
def assertString : JValue → Except String String
  | .str s => .ok s
  | _ => .error "interface conversion panic"

/-- Embeds an unchecked Go type assertion value.(float64). -/
def assertFloat : JValue → Except String ℚ
  | .num q => .ok q
  | _ => .error "interface conversion panic"

/-- Embeds the Go conversion int64(x) of a float64: truncation toward
zero. -/
def goTruncInt (q : ℚ) : ℤ := if 0 ≤ q then q.floor else q.ceil

/-- Embeds the field extraction of one trade object
(stock_realtime_fetcher.go, lines 75 to 78): four unchecked type
assertions on s, p, t and v in source order, each able to panic on a
missing or mis-typed field. -/
def extractTrade (tradeData : List (String × JValue)) : Except String TradeEvent := do
  let s ← assertString (jLookup tradeData "s")
  let p ← assertFloat (jLookup tradeData "p")
  let t ← assertFloat (jLookup tradeData "t")
  let v ← assertFloat (jLookup tradeData "v")
  pure { s := s, p := p, t := goTruncInt t, v := v }

/-- Embeds the loop over the trades of one message (lines 68 to 123): an
element that is not an object is reported and skipped with the loop
continuing; an object element goes through field extraction, whose panic
propagates, and then through the quote-table update. -/
def processTrades (d : QuoteMap) : List JValue → Except String QuoteMap
  | [] => .ok d
  | tv :: rest =>
      match tv with
      | .obj tradeData =>
          match extractTrade tradeData with
          | .error e => .error e
          | .ok ev => processTrades (processTrade d ev) rest
      | _ => processTrades d rest

/-- Embeds one iteration of the websocket read loop (lines 49 to 125) on
an already-decoded message object: a message whose type field is not the
string trade is ignored; a trade message whose data field is not an array
is reported and skipped; otherwise the trades are processed in order. -/
def processMessage (d : QuoteMap) (response : List (String × JValue)) :
    Except String QuoteMap :=
  match jLookup response "type" with
  | .str t =>
      if t = "trade" then
        match jLookup response "data" with
        | .arr trades => processTrades d trades
        | _ => .ok d
      else .ok d
  | _ => .ok d

/-- Concrete malformed input for claim C6: a trade message whose first
trade object has no s field, followed by a perfectly well-formed trade. -/
def c6Msg : List (String × JValue) :=
  [("type", .str "trade"),
   ("data", .arr
      [.obj [("p", .num 1)],
       .obj [("s", .str "AAPL"), ("p", .num 151), ("t", .num 1000), ("v", .num 1)]])]

/-- C6 counterexample: on a trade message whose first trade object lacks
the s field, the unchecked type assertion panics: processing of the
message halts with the panic instead of dropping the event and continuing
to the following well-formed trade. -/
theorem processMessage_crashes_on_missing_field :
    processMessage c2Map c6Msg = .error "interface conversion panic" ∧
    (Except.error "interface conversion panic" ≠
      (.ok c2Map : Except String QuoteMap)) := by
  exact ⟨rfl, by simp⟩

theorem assertString_eq_error (v : JValue) (h : ∀ s : String, v ≠ JValue.str s) :
    assertString v = .error "interface conversion panic" := by
  cases v with
  | str s => exact absurd rfl (h s)
  | num q => rfl
  | arr l => rfl
  | obj o => rfl
  | null => rfl

theorem assertFloat_eq_error (v : JValue) (h : ∀ q : ℚ, v ≠ JValue.num q) :
    assertFloat v = .error "interface conversion panic" := by
  cases v with
  | num q => exact absurd rfl (h q)
  | str s => rfl
  | arr l => rfl
  | obj o => rfl
  | null => rfl

theorem assertString_error_msg (v : JValue) (e : String)
    (h : assertString v = .error e) : e = "interface conversion panic" := by
  cases v <;> simp_all [assertString]

theorem assertFloat_error_msg (v : JValue) (e : String)
    (h : assertFloat v = .error e) : e = "interface conversion panic" := by
  cases v <;> simp_all [assertFloat]

/-- Field extraction panics whenever any of the four asserted fields is
missing or mis-typed: the s value is not a string, or the p, t or v value
is not a number. A missing key reads as the nil interface, which is one of
the non-matching cases, so missing and mis-typed fields are covered
uniformly. -/
theorem extractTrade_panics (tradeData : List (String × JValue))
    (h : (∀ s : String, jLookup tradeData "s" ≠ JValue.str s) ∨
         (∀ q : ℚ, jLookup tradeData "p" ≠ JValue.num q) ∨
         (∀ q : ℚ, jLookup tradeData "t" ≠ JValue.num q) ∨
         (∀ q : ℚ, jLookup tradeData "v" ≠ JValue.num q)) :
    extractTrade tradeData = .error "interface conversion panic" := by
  unfold extractTrade
  rcases h with h | h | h | h
  · (rw [assertString_eq_error _ h]; rfl)
  · cases hs : assertString (jLookup tradeData "s") with
    | error e => (rw [assertString_error_msg _ e hs]; rfl)
    | ok s => (rw [assertFloat_eq_error (jLookup tradeData "p") h]; rfl)
  · cases hs : assertString (jLookup tradeData "s") with
    | error e => (rw [assertString_error_msg _ e hs]; rfl)
    | ok s =>
        cases hp : assertFloat (jLookup tradeData "p") with
        | error e => (rw [assertFloat_error_msg _ e hp]; rfl)
        | ok p => (rw [assertFloat_eq_error (jLookup tradeData "t") h]; rfl)
  · cases hs : assertString (jLookup tradeData "s") with
    | error e => (rw [assertString_error_msg _ e hs]; rfl)
    | ok s =>
        cases hp : assertFloat (jLookup tradeData "p") with
        | error e => (rw [assertFloat_error_msg _ e hp]; rfl)
        | ok p =>
            cases ht : assertFloat (jLookup tradeData "t") with
            | error e => (rw [assertFloat_error_msg _ e ht]; rfl)
            | ok t => (rw [assertFloat_eq_error (jLookup tradeData "v") h]; rfl)

/-- C6 amended: non-trade messages are ignored, a trade message whose data
field is not an array is skipped, a trade element that is not an object is
skipped with later elements still processed, but a trade object with a
missing or mis-typed field (its s value not a string, or its p, t or v
value not a number, a missing key reading as nil) makes the whole message
processing panic. -/
theorem processMessage_malformed_policy (d : QuoteMap)
    (response : List (String × JValue)) (tv : JValue) (rest : List JValue)
    (tradeData : List (String × JValue)) :
    (jLookup response "type" ≠ .str "trade" → processMessage d response = .ok d) ∧
    (jLookup response "type" = .str "trade" →
      (∀ l : List JValue, jLookup response "data" ≠ .arr l) →
      processMessage d response = .ok d) ∧
    ((∀ td : List (String × JValue), tv ≠ .obj td) →
      processTrades d (tv :: rest) = processTrades d rest) ∧
    ((∀ s : String, jLookup tradeData "s" ≠ JValue.str s) ∨
     (∀ q : ℚ, jLookup tradeData "p" ≠ JValue.num q) ∨
     (∀ q : ℚ, jLookup tradeData "t" ≠ JValue.num q) ∨
     (∀ q : ℚ, jLookup tradeData "v" ≠ JValue.num q) →
      processTrades d (.obj tradeData :: rest) = .error "interface conversion panic") := by
  refine ⟨?_, ?_, ?_, ?_⟩
  · intro h
    unfold processMessage
    cases hx : jLookup response "type" with
    | str t =>
        have ht : t ≠ "trade" := by
          intro he
          exact h (by rw [hx, he])
        simp [ht]
    | num q => rfl
    | arr l => rfl
    | obj o => rfl
    | null => rfl
  · intro h hd
    unfold processMessage
    rw [h]
    simp only [if_pos rfl]
    cases hx : jLookup response "data" with
    | arr l => exact absurd hx (hd l)
    | str t => rfl
    | num q => rfl
    | obj o => rfl
    | null => rfl
  · intro h
    cases tv with
    | obj td => exact absurd rfl (h td)
    | str t => rfl
    | num q => rfl
    | arr l => rfl
    | null => rfl
  · intro h
    simp [processTrades, extractTrade_panics tradeData h]

/-- Witness for the amended C6 at concrete inputs: a ping message is
ignored, a trade message with string data is skipped, a nil trade element
is skipped, and each malformed-field shape panics: a trade object with a
missing s field, one whose s field is a number, and one whose v field is
missing while s, p and t are well-formed. -/
theorem processMessage_malformed_policy_witness :
    processMessage c2Map [("type", .str "ping")] = .ok c2Map ∧
    processMessage c2Map [("type", .str "trade"), ("data", .str "x")] = .ok c2Map ∧
    processTrades c2Map [JValue.null] = processTrades c2Map [] ∧
    processTrades c2Map [.obj [("p", JValue.num 1)]] =
      .error "interface conversion panic" ∧
    processTrades c2Map [.obj [("s", JValue.num 7), ("p", JValue.num 1),
      ("t", JValue.num 1), ("v", JValue.num 1)]] =
      .error "interface conversion panic" ∧
    processTrades c2Map [.obj [("s", JValue.str "AAPL"), ("p", JValue.num 151),
      ("t", JValue.num 1000)]] =
      .error "interface conversion panic" := by
  refine ⟨?_, ?_, ?_, ?_, ?_, ?_⟩
  · exact (processMessage_malformed_policy c2Map [("type", .str "ping")]
      JValue.null [] []).1 (by simp [jLookup])
  · exact (processMessage_malformed_policy c2Map
      [("type", .str "trade"), ("data", .str "x")] JValue.null [] []).2.1
      (by simp [jLookup]) (by intro l; simp [jLookup])
  · exact (processMessage_malformed_policy c2Map [] JValue.null []
      []).2.2.1 (by intro td; simp)
  · exact (processMessage_malformed_policy c2Map [] JValue.null []
      [("p", JValue.num 1)]).2.2.2 (Or.inl (by intro s; simp [jLookup]))
  · exact (processMessage_malformed_policy c2Map [] JValue.null []
      [("s", JValue.num 7), ("p", JValue.num 1), ("t", JValue.num 1),
       ("v", JValue.num 1)]).2.2.2 (Or.inl (by intro s; simp [jLookup]))
  · exact (processMessage_malformed_policy c2Map [] JValue.null []
      [("s", JValue.str "AAPL"), ("p", JValue.num 151),
       ("t", JValue.num 1000)]).2.2.2
      (Or.inr (Or.inr (Or.inr (by intro q; simp [jLookup]))))
